import Mathlib

/-!
Verification of the live-preview synchronization contract and the demo
collection configuration of this repository.

The repository ships two source artifacts:

* `docs/live-preview/frontend.mdx` — documentation of the live-preview
  protocol, containing the full source of the `useLivePreview` React hook
  adapter (state `data`/`isLoading`, a `hasSentReadyMessage` ref guarding the
  one-time `ready` handshake, and an effect that subscribes/unsubscribes).
* `packages/plugin-stripe/demo/src/collections/Customers.ts` — a static
  declarative collection schema.

The merge engine, message codec and subscription manager of the
`@payloadcms/live-preview` package are not part of the repository's sources;
where a claim depends on them they are modelled from the specification text
(§4.1–§4.4), and each such definition is marked `Modelled from the spec:`.
-/

set_option autoImplicit false

namespace LivePreview

/-- Structured JSON-like values: the opaque document payload exchanged between
the admin panel and the preview client. A document snapshot is a record,
modelled as an association list from field names to values. -/
inductive JValue where
  | null : JValue
  | str : String → JValue
  | num : Int → JValue
  | bool : Bool → JValue
  | arr : List JValue → JValue
  | obj : List (String × JValue) → JValue

/-- A document (snapshot or patch): a mapping of field names to values. -/
abbrev Doc := List (String × JValue)

/-- Look a field up in a document by name (first occurrence wins). -/
def lookupField : Doc → String → Option JValue
  | [], _ => none
  | (k, v) :: rest, key => if k = key then some v else lookupField rest key

/-- Overwrite a field of a document in place, appending it when absent. -/
def setField : Doc → String → JValue → Doc
  | [], key, v => [(key, v)]
  | (k, w) :: rest, key, v =>
      if k = key then (key, v) :: rest else (k, w) :: setField rest key v

/-- Modelled from the spec: relationship/upload expansion (§4.3 step 3).
The resolver is the external collaborator that maps a bare identifier to its
populated object form; a failed resolver call leaves the identifier
unexpanded (§7 error kind b). Expansion applies to a bare identifier or to
each element of a list of identifiers. -/
def expandValue (resolve : String → Option JValue) : JValue → JValue
  | .str id =>
      match resolve id with
      | some doc => doc
      | none => .str id
  | .arr xs =>
      .arr (xs.map (fun x =>
        match x with
        | .str id =>
            match resolve id with
            | some doc => doc
            | none => .str id
        | other => other))
  | v => v

/-- Modelled from the spec: the value a patch field contributes to the merged
result (§4.3 steps 2–3). Relationship/upload-typed fields (named in
`relFields`) are expanded when `depth > 0`; all other fields, and every field
at `depth = 0`, keep the patch's value unchanged. -/
def resolveField (resolve : String → Option JValue) (relFields : List String)
    (depth : Nat) (name : String) (v : JValue) : JValue :=
  if 0 < depth ∧ name ∈ relFields then expandValue resolve v else v

/-- Modelled from the spec: the data merge engine (§4.3). Starting from the
previous snapshot, every field present in the incoming patch overwrites the
corresponding field of the result (patch wins, arrays replaced wholesale);
fields absent from the patch are retained unchanged. -/
def mergeData (resolve : String → Option JValue) (relFields : List String)
    (depth : Nat) (previous incoming : Doc) : Doc :=
  incoming.foldl
    (fun acc kv => setField acc kv.1 (resolveField resolve relFields depth kv.1 kv.2))
    previous

/-- The field names of a document. -/
def keys (d : Doc) : List String := d.map Prod.fst

theorem lookupField_setField_ne (l : Doc) (k key : String) (v : JValue)
    (h : key ≠ k) : lookupField (setField l k v) key = lookupField l key := by
  induction l with
  | nil => simp [setField, lookupField, Ne.symm h]
  | cons hd tl ih =>
      obtain ⟨k', v'⟩ := hd
      by_cases hk : k' = k
      · subst hk
        simp [setField, lookupField, Ne.symm h]
      · simp only [setField, if_neg hk, lookupField]
        by_cases hkey : k' = key
        · simp [hkey]
        · simp [hkey, ih]

theorem lookupField_setField_eq (l : Doc) (k : String) (v : JValue) :
    lookupField (setField l k v) k = some v := by
  induction l with
  | nil => simp [setField, lookupField]
  | cons hd tl ih =>
      obtain ⟨k', v'⟩ := hd
      by_cases hk : k' = k
      · subst hk
        simp [setField, lookupField]
      · simp [setField, hk, lookupField, ih]

theorem setField_of_lookup_eq (l : Doc) (k : String) (v : JValue)
    (h : lookupField l k = some v) : setField l k v = l := by
  induction l with
  | nil => simp [lookupField] at h
  | cons hd tl ih =>
      obtain ⟨k', v'⟩ := hd
      by_cases hk : k' = k
      · subst hk
        simp [lookupField] at h
        simp [setField, h]
      · simp [lookupField, hk] at h
        simp [setField, hk, ih h]

theorem mem_keys_setField (l : Doc) (k key : String) (v : JValue)
    (h : key ∈ keys l) : key ∈ keys (setField l k v) := by
  induction l with
  | nil => simp [keys] at h
  | cons hd tl ih =>
      obtain ⟨k', v'⟩ := hd
      by_cases hk : k' = k
      · subst hk
        simp [keys, setField] at h ⊢
        rcases h with h | h
        · subst h; exact Or.inl rfl
        · exact Or.inr h
      · simp [keys, setField, hk] at h ⊢
        rcases h with h | h
        · exact Or.inl h
        · exact Or.inr (by simpa [keys] using ih (by simpa [keys] using h))

theorem lookupField_mergeData_not_mem (resolve : String → Option JValue)
    (relFields : List String) (depth : Nat) (S P : Doc) (k : String)
    (h : k ∉ keys P) :
    lookupField (mergeData resolve relFields depth S P) k = lookupField S k := by
  induction P generalizing S with
  | nil => rfl
  | cons hd tl ih =>
      obtain ⟨k', v'⟩ := hd
      simp [keys] at h
      push_neg at h
      simp only [mergeData, List.foldl_cons]
      rw [show
        (List.foldl
          (fun acc kv => setField acc kv.1 (resolveField resolve relFields depth kv.1 kv.2))
          (setField S k' (resolveField resolve relFields depth k' v')) tl)
          = mergeData resolve relFields depth
              (setField S k' (resolveField resolve relFields depth k' v')) tl from rfl]
      rw [ih _ (by simpa [keys] using h.2)]
      exact lookupField_setField_ne S k' k _ h.1

theorem mem_keys_mergeData (resolve : String → Option JValue)
    (relFields : List String) (depth : Nat) (S P : Doc) (k : String)
    (h : k ∈ keys S) : k ∈ keys (mergeData resolve relFields depth S P) := by
  induction P generalizing S with
  | nil => exact h
  | cons hd tl ih =>
      simp only [mergeData, List.foldl_cons] at ih ⊢
      exact ih _ (mem_keys_setField S hd.1 k _ h)

theorem lookupField_mergeData_mem (resolve : String → Option JValue)
    (relFields : List String) (depth : Nat) (S P : Doc) (k : String) (v : JValue)
    (hnd : (keys P).Nodup) (h : (k, v) ∈ P) :
    lookupField (mergeData resolve relFields depth S P) k
      = some (resolveField resolve relFields depth k v) := by
  induction P generalizing S with
  | nil => simp at h
  | cons hd tl ih =>
      obtain ⟨k', v'⟩ := hd
      simp only [keys, List.map_cons, List.nodup_cons] at hnd
      rcases List.mem_cons.mp h with h | h
      · obtain ⟨hk, hv⟩ := Prod.mk.injEq .. ▸ h
        subst hk
        subst hv
        simp only [mergeData, List.foldl_cons]
        have hnotin : k ∉ keys tl := by simpa [keys] using hnd.1
        rw [show
          (List.foldl
            (fun acc kv => setField acc kv.1 (resolveField resolve relFields depth kv.1 kv.2))
            (setField S k (resolveField resolve relFields depth k v)) tl)
            = mergeData resolve relFields depth
                (setField S k (resolveField resolve relFields depth k v)) tl from rfl]
        rw [lookupField_mergeData_not_mem _ _ _ _ _ _ hnotin]
        exact lookupField_setField_eq S k _
      · simp only [mergeData, List.foldl_cons]
        exact ih _ (by simpa [keys] using hnd.2) h

theorem mergeData_fixed (resolve : String → Option JValue)
    (relFields : List String) (depth : Nat) (P M : Doc)
    (h : ∀ kv ∈ P, lookupField M kv.1
        = some (resolveField resolve relFields depth kv.1 kv.2)) :
    mergeData resolve relFields depth M P = M := by
  induction P generalizing M with
  | nil => rfl
  | cons hd tl ih =>
      simp only [mergeData, List.foldl_cons]
      rw [setField_of_lookup_eq M hd.1 _ (h hd (List.mem_cons_self _ _))]
      exact ih M (fun kv hkv => h kv (List.mem_cons_of_mem _ hkv))

/-- The resolver of the documented scenario: identifier "2" resolves to the
populated related post. -/
def demoResolve : String → Option JValue := fun id =>
  if id = "2" then some (.obj [("id", .str "2"), ("title", .str "B")]) else none

/-- State of the `useLivePreview` hook adapter, translated from the hook's
source in `docs/live-preview/frontend.mdx`: the React state `data` and
`isLoading`, the `hasSentReadyMessage` ref, and — as the observable record of
the readiness handshake — a log with one entry per subscription established by
the effect, recording whether a `ready` message was sent when that
subscription was established. -/
structure HookState (α : Type) where
  data : α
  isLoading : Bool
  hasSentReadyMessage : Bool
  readyLog : List Bool

/-- Events driving the hook, from the source: the effect running (on mount or
whenever `serverURL`, `depth` or `initialData` changes, it subscribes and
possibly sends `ready`), and the `onChange` callback firing with merged data
after an accepted merge. -/
inductive HookEvent (α : Type) where
  | effectRun : HookEvent α
  | change : α → HookEvent α

/-- Initial hook state, from the source: `useState(initialData)`,
`useState(true)`, `useRef(false)`, and no subscription established yet. -/
def hookInit {α : Type} (initialData : α) : HookState α :=
  { data := initialData, isLoading := true, hasSentReadyMessage := false,
    readyLog := [] }

/-- One step of the hook, translated from the source. The effect always
subscribes; it sends `ready` only when `hasSentReadyMessage.current` is still
false, setting the ref to true. The `onChange` callback sets `data` to the
merged data and `isLoading` to false. -/
def hookStep {α : Type} (s : HookState α) : HookEvent α → HookState α
  | .effectRun =>
      if s.hasSentReadyMessage then
        { s with readyLog := s.readyLog ++ [false] }
      else
        { s with hasSentReadyMessage := true, readyLog := s.readyLog ++ [true] }
  | .change m => { s with data := m, isLoading := false }

/-- Run the hook over a sequence of events. -/
def hookRun {α : Type} (s : HookState α) (events : List (HookEvent α)) :
    HookState α :=
  events.foldl hookStep s

/-- Invariant of the readiness handshake: either no `ready` message was ever
sent and no subscription exists that sent one, or the ref is set and exactly
the first subscription sent one. -/
def ReadyInv {α : Type} (s : HookState α) : Prop :=
  (s.hasSentReadyMessage = false ∧ s.readyLog = [])
  ∨ (s.hasSentReadyMessage = true
      ∧ ∃ n, s.readyLog = true :: List.replicate n false)

theorem readyInv_step {α : Type} (s : HookState α) (e : HookEvent α)
    (h : ReadyInv s) : ReadyInv (hookStep s e) := by
  cases e with
  | effectRun =>
      rcases h with ⟨href, hlog⟩ | ⟨href, n, hlog⟩
      · right
        refine ⟨?_, 0, ?_⟩ <;> simp [hookStep, href, hlog]
      · right
        refine ⟨?_, n + 1, ?_⟩ <;>
          simp [hookStep, href, hlog, List.replicate_succ']
  | change m =>
      rcases h with ⟨href, hlog⟩ | ⟨href, n, hlog⟩
      · exact Or.inl ⟨href, hlog⟩
      · exact Or.inr ⟨href, n, hlog⟩

theorem readyInv_run {α : Type} (s : HookState α) (evs : List (HookEvent α))
    (h : ReadyInv s) : ReadyInv (hookRun s evs) := by
  induction evs generalizing s with
  | nil => exact h
  | cons e rest ih => exact ih _ (readyInv_step s e h)

theorem count_true_replicate_false (n : Nat) :
    (List.replicate n false).count true = 0 := by
  induction n with
  | zero => rfl
  | succ m ih => simp [List.replicate_succ, List.count_cons, ih]

theorem hasSent_mono {α : Type} (s : HookState α) (evs : List (HookEvent α))
    (h : s.hasSentReadyMessage = true) :
    (hookRun s evs).hasSentReadyMessage = true := by
  induction evs generalizing s with
  | nil => exact h
  | cons e rest ih =>
      refine ih _ ?_
      cases e <;> simp [hookStep, h]

theorem hasSent_after_effectRun {α : Type} (s : HookState α)
    (evs : List (HookEvent α)) (h : HookEvent.effectRun ∈ evs) :
    (hookRun s evs).hasSentReadyMessage = true := by
  induction evs generalizing s with
  | nil => simp at h
  | cons e rest ih =>
      rcases List.mem_cons.mp h with h | h
      · subst h
        refine hasSent_mono _ rest ?_
        by_cases hs : s.hasSentReadyMessage <;> simp [hookStep, hs]
      · exact ih _ h

/-- C1. For every snapshot S and patch P, merge(S, P) leaves every field of S
that is not present in P unchanged in the result, and no field of S is
dropped: every field name of S is still a field name of the merged result (a
field the patch explicitly nulls is set to null, not dropped). -/
theorem merge_retains_absent_fields (resolve : String → Option JValue)
    (relFields : List String) (depth : Nat) (S P : Doc) (k : String) :
    (k ∉ keys P →
        lookupField (mergeData resolve relFields depth S P) k = lookupField S k)
    ∧ (k ∈ keys S → k ∈ keys (mergeData resolve relFields depth S P)) := by
  constructor
  · intro h
    exact lookupField_mergeData_not_mem resolve relFields depth S P k h
  · intro h
    exact mem_keys_mergeData resolve relFields depth S P k h

/-- Witness for C1: with snapshot {a: "x", b: "y"} and patch {b: null}, the
field a is retained unchanged and both field names survive the merge. -/
theorem merge_retains_absent_fields_witness :
    (lookupField
        (mergeData (fun _ => none) [] 0
          [("a", JValue.str "x"), ("b", JValue.str "y")] [("b", JValue.null)])
        "a" = lookupField [("a", JValue.str "x"), ("b", JValue.str "y")] "a")
    ∧ "b" ∈ keys (mergeData (fun _ => none) [] 0
        [("a", JValue.str "x"), ("b", JValue.str "y")] [("b", JValue.null)]) :=
  ⟨(merge_retains_absent_fields (fun _ => none) [] 0
      [("a", JValue.str "x"), ("b", JValue.str "y")] [("b", JValue.null)] "a").1
      (by decide),
   (merge_retains_absent_fields (fun _ => none) [] 0
      [("a", JValue.str "x"), ("b", JValue.str "y")] [("b", JValue.null)] "b").2
      (by decide)⟩

/-- C2. Every field present in the patch P appears in merge(S, P) with the
patch's value — resolved through relationship expansion when the field is
relationship-typed and depth is positive, and literally the patch's value
otherwise — overriding any value that field had in S (patch wins). -/
theorem merge_patch_wins (resolve : String → Option JValue)
    (relFields : List String) (depth : Nat) (S P : Doc) (k : String)
    (v : JValue) (hnd : (keys P).Nodup) (h : (k, v) ∈ P) :
    lookupField (mergeData resolve relFields depth S P) k
      = some (resolveField resolve relFields depth k v)
    ∧ (¬(0 < depth ∧ k ∈ relFields) →
        lookupField (mergeData resolve relFields depth S P) k = some v) := by
  have hmain := lookupField_mergeData_mem resolve relFields depth S P k v hnd h
  refine ⟨hmain, fun hnot => ?_⟩
  rw [hmain, resolveField, if_neg hnot]

/-- Witness for C2: the patch {title: "Home Page"} overrides the snapshot's
title at depth 0. -/
theorem merge_patch_wins_witness :
    lookupField
        (mergeData (fun _ => none) [] 0 [("title", JValue.str "Home")]
          [("title", JValue.str "Home Page")])
        "title" = some (JValue.str "Home Page") :=
  (merge_patch_wins (fun _ => none) [] 0 [("title", JValue.str "Home")]
      [("title", JValue.str "Home Page")] "title" (JValue.str "Home Page")
      (by decide) (by simp)).2 (by decide)

/-- C3. merge is idempotent under repeated application of the same patch:
merging a patch with duplicate-free field names into an already-merged
snapshot changes nothing. -/
theorem merge_idempotent (resolve : String → Option JValue)
    (relFields : List String) (depth : Nat) (S P : Doc)
    (hnd : (keys P).Nodup) :
    mergeData resolve relFields depth (mergeData resolve relFields depth S P) P
      = mergeData resolve relFields depth S P := by
  apply mergeData_fixed
  intro kv hkv
  exact lookupField_mergeData_mem resolve relFields depth S P kv.1 kv.2 hnd
    (by simpa using hkv)

/-- Witness for C3: idempotence at the concrete snapshot {a: "x"} and patch
{b: null}. -/
theorem merge_idempotent_witness :
    mergeData (fun _ => none) [] 0
        (mergeData (fun _ => none) [] 0 [("a", JValue.str "x")]
          [("b", JValue.null)])
        [("b", JValue.null)]
      = mergeData (fun _ => none) [] 0 [("a", JValue.str "x")]
          [("b", JValue.null)] :=
  merge_idempotent (fun _ => none) [] 0 [("a", JValue.str "x")]
    [("b", JValue.null)] (by decide)

/-- C8. Arrays are replaced wholesale by the patch: with snapshot
{title: "Home", relatedPosts: [{id: "1", title: "A"}]} at depth 1 and patch
{relatedPosts: ["2"]} whose resolver returns {id: "2", title: "B"}, the merged
result is {title: "Home", relatedPosts: [{id: "2", title: "B"}]} — the
snapshot's array element is not merged element-wise but replaced. -/
theorem merge_array_wholesale_scenario :
    mergeData demoResolve ["relatedPosts"] 1
        [("title", JValue.str "Home"),
         ("relatedPosts",
            JValue.arr [JValue.obj [("id", JValue.str "1"), ("title", JValue.str "A")]])]
        [("relatedPosts", JValue.arr [JValue.str "2"])]
      = [("title", JValue.str "Home"),
         ("relatedPosts",
            JValue.arr [JValue.obj [("id", JValue.str "2"), ("title", JValue.str "B")]])] := by
  rfl

/-- C5. The hook adapter's observable state machine, from the source of
`useLivePreview`: initially `data` is `initialData` and `isLoading` is true;
on every accepted merge — the first and all subsequent ones — `data` becomes
the merged result and `isLoading` is false. -/
theorem hook_state_machine (α : Type) (initialData : α) :
    (hookInit initialData).data = initialData
    ∧ (hookInit initialData).isLoading = true
    ∧ ∀ (s : HookState α) (merged : α),
        (hookStep s (HookEvent.change merged)).data = merged
        ∧ (hookStep s (HookEvent.change merged)).isLoading = false :=
  ⟨rfl, rfl, fun _ _ => ⟨rfl, rfl⟩⟩

/-- C9. The already-sent guard `hasSentReadyMessage` is a ref spanning the
whole mounted component's lifetime: over every event sequence, at most one
`ready` message is ever sent, and every subscription after the first one
(created when the effect re-runs because `serverURL`, `depth` or
`initialData` changed) sends no `ready` message at all. -/
theorem ready_guard_spans_component_lifetime (α : Type) (initialData : α)
    (evs : List (HookEvent α)) :
    (hookRun (hookInit initialData) evs).readyLog.count true ≤ 1
    ∧ (hookRun (hookInit initialData) evs).readyLog.drop 1
        = List.replicate
            ((hookRun (hookInit initialData) evs).readyLog.length - 1) false := by
  have hinv := readyInv_run (hookInit initialData) evs (Or.inl ⟨rfl, rfl⟩)
  rcases hinv with ⟨_, hlog⟩ | ⟨_, n, hlog⟩
  · rw [hlog]
    exact ⟨by simp, by simp⟩
  · rw [hlog]
    constructor
    · simp [List.count_cons, count_true_replicate_false]
    · simp

/-- C4 counterexample. The claim "exactly one ready message is sent per
subscription lifetime" fails on the hook's source: when the effect re-runs
(two subscriptions over the component's lifetime), the second subscription
sends no ready message, so not every subscription's log entry is true. -/
theorem ready_not_once_per_subscription_cex :
    ¬ (∀ b ∈ (hookRun (hookInit false)
          [HookEvent.effectRun, HookEvent.effectRun]).readyLog, b = true) := by
  decide

/-- C4 amended. At most one ready message is sent per mounted component
lifetime, regardless of how many change messages arrive and how often the
effect re-runs; once any effect run has happened, exactly one ready message
has been sent, and the already-sent guard makes every further effect run a
no-op for the handshake. -/
theorem ready_at_most_once_per_component (α : Type) (initialData : α)
    (evs : List (HookEvent α)) :
    (hookRun (hookInit initialData) evs).readyLog.count true ≤ 1
    ∧ (HookEvent.effectRun ∈ evs →
        (hookRun (hookInit initialData) evs).readyLog.count true = 1) := by
  have hinv := readyInv_run (hookInit initialData) evs (Or.inl ⟨rfl, rfl⟩)
  constructor
  · rcases hinv with ⟨_, hlog⟩ | ⟨_, n, hlog⟩
    · simp [hlog]
    · simp [hlog, List.count_cons, count_true_replicate_false]
  · intro hmem
    have hsent := hasSent_after_effectRun (hookInit initialData) evs hmem
    rcases hinv with ⟨href, _⟩ | ⟨_, n, hlog⟩
    · rw [href] at hsent
      exact absurd hsent (by simp)
    · simp [hlog, List.count_cons, count_true_replicate_false]

/-- Witness for the amended C4: after a single effect run, exactly one ready
message has been sent. -/
theorem ready_at_most_once_per_component_witness :
    (hookRun (hookInit false) [HookEvent.effectRun]).readyLog.count true = 1 :=
  (ready_at_most_once_per_component Bool false [HookEvent.effectRun]).2
    (List.mem_cons_self _ _)

/-- Modelled from the spec: the message envelope codec (§4.1, §6). An inbound
change message is an object carrying the type discriminator "change" and a
structured document payload; anything else — a non-object, a missing or
foreign type tag, or a payload that is not a record — fails to decode. -/
def decodeChange (raw : JValue) : Option Doc :=
  match raw with
  | .obj fields =>
      match lookupField fields "type", lookupField fields "data" with
      | some (.str "change"), some (.obj docFields) => some docFields
      | _, _ => none
  | _ => none

/-- Modelled from the spec: the subscription manager's handling of one
inbound message (§4.1, §4.2, §7). A message whose origin is not the trusted
server URL, or that fails to decode, is silently ignored: the snapshot is
retained and the callback is not invoked. An accepted change message is
merged into the snapshot and the callback receives the merged result. The
returned pair is the new snapshot together with the list of callback
invocations this message caused; the handler is a total function, so no
exception reaches the caller's rendering path. -/
def handleMessage (serverURL : String) (resolve : String → Option JValue)
    (relFields : List String) (depth : Nat) (snapshot : Doc)
    (origin : String) (raw : JValue) : Doc × List Doc :=
  if origin = serverURL then
    match decodeChange raw with
    | some patch =>
        let merged := mergeData resolve relFields depth snapshot patch
        (merged, [merged])
    | none => (snapshot, [])
  else (snapshot, [])

/-- C6. A message that fails to decode, is structurally incompatible with the
expected document shape, or comes from an untrusted origin causes the merge
to be skipped: the previous snapshot is retained unchanged and the callback
is invoked zero times; the handler is total, so no exception propagates. -/
theorem bad_message_skipped (serverURL : String)
    (resolve : String → Option JValue) (relFields : List String) (depth : Nat)
    (snapshot : Doc) (origin : String) (raw : JValue)
    (h : origin ≠ serverURL ∨ decodeChange raw = none) :
    handleMessage serverURL resolve relFields depth snapshot origin raw
      = (snapshot, []) := by
  rcases h with h | h
  · simp [handleMessage, h]
  · by_cases ho : origin = serverURL
    · simp [handleMessage, ho, h]
    · simp [handleMessage, ho]

/-- Witness for C6: a message from an untrusted origin leaves the snapshot
{a: "x"} unchanged and produces zero callback invocations. -/
theorem bad_message_skipped_witness :
    handleMessage "https://cms.example" (fun _ => none) [] 0
        [("a", JValue.str "x")] "https://evil.example" JValue.null
      = ([("a", JValue.str "x")], []) :=
  bad_message_skipped "https://cms.example" (fun _ => none) [] 0
    [("a", JValue.str "x")] "https://evil.example" JValue.null
    (Or.inl (by decide))

/-- Modelled from the spec: the shared message transport's listener registry
(§4.2, §5). Each subscription handle is an opaque token owning one listener
registration; `nextHandle` supplies fresh handles. -/
structure TransportState where
  listeners : List Nat
  nextHandle : Nat

/-- Modelled from the spec: `subscribe` registers exactly one listener on the
shared transport and returns its fresh handle (§4.2). -/
def subscribe (st : TransportState) : TransportState × Nat :=
  ({ listeners := st.nextHandle :: st.listeners, nextHandle := st.nextHandle + 1 },
   st.nextHandle)

/-- Modelled from the spec: `unsubscribe` releases the listener registration
associated with the handle (§4.2). It returns the new transport state
together with the number of registrations released by this call, and it is a
total function: an already-released or unknown handle does not fail
observably. -/
def unsubscribe (st : TransportState) (h : Nat) : TransportState × Nat :=
  let remaining := st.listeners.filter (fun x => x ≠ h)
  ({ st with listeners := remaining },
   st.listeners.length - remaining.length)

theorem filter_self_idem {α : Type} (p : α → Bool) (l : List α) :
    (l.filter p).filter p = l.filter p := by
  induction l with
  | nil => rfl
  | cons a l ih =>
      by_cases hp : p a
      · simp [List.filter_cons, hp, ih]
      · simp [List.filter_cons, hp, ih]

theorem removed_length_le_one (l : List Nat) (h : Nat) (hnd : l.Nodup) :
    l.length - (l.filter (fun x => x ≠ h)).length ≤ 1 := by
  induction l with
  | nil => simp
  | cons a l ih =>
      rw [List.nodup_cons] at hnd
      by_cases ha : a = h
      · subst ha
        have hfix : l.filter (fun x => x ≠ a) = l :=
          List.filter_eq_self.mpr (fun x hx => by
            simp only [decide_eq_true_eq]
            exact fun hxa => hnd.1 (hxa ▸ hx))
        have hstep : (a :: l).filter (fun x => x ≠ a) = l := by
          rw [List.filter_cons, if_neg (by simp), hfix]
        rw [hstep, List.length_cons]
        omega
      · simp only [List.filter_cons, decide_eq_true_eq]
        rw [if_pos ha]
        simpa [Nat.succ_sub_succ] using ih hnd.2

/-- C7. unsubscribe is idempotent: a second call on the same handle leaves
the transport state unchanged and releases nothing further; the released
handle is no longer registered; and on a duplicate-free registry a single
call releases at most one registration. Totality of `unsubscribe` means no
call fails observably. -/
theorem unsubscribe_idempotent (st : TransportState) (h : Nat) :
    (unsubscribe (unsubscribe st h).1 h).1 = (unsubscribe st h).1
    ∧ (unsubscribe (unsubscribe st h).1 h).2 = 0
    ∧ h ∉ (unsubscribe st h).1.listeners
    ∧ (st.listeners.Nodup → (unsubscribe st h).2 ≤ 1) := by
  refine ⟨?_, ?_, ?_, ?_⟩
  · simp [unsubscribe, filter_self_idem]
  · simp [unsubscribe, filter_self_idem]
  · simp [unsubscribe]
  · intro hnd
    exact removed_length_le_one st.listeners h hnd

/-- Witness for C7: on the duplicate-free registry [5, 7], releasing handle 5
twice releases one registration the first time and none the second, and the
state after the second call equals the state after the first. -/
theorem unsubscribe_idempotent_witness :
    (TransportState.mk [5, 7] 8).listeners.Nodup
    ∧ (unsubscribe (unsubscribe (TransportState.mk [5, 7] 8) 5).1 5).1
        = (unsubscribe (TransportState.mk [5, 7] 8) 5).1
    ∧ (unsubscribe (TransportState.mk [5, 7] 8) 5).2 ≤ 1 :=
  ⟨by decide,
   (unsubscribe_idempotent (TransportState.mk [5, 7] 8) 5).1,
   (unsubscribe_idempotent (TransportState.mk [5, 7] 8) 5).2.2.2 (by decide)⟩

end LivePreview

namespace StripeDemo

/-- Field types occurring in the Customers collection config, from
`packages/plugin-stripe/demo/src/collections/Customers.ts`. -/
inductive FieldType where
  | text : FieldType
  | ui : FieldType
  | relationship : FieldType
  | select : FieldType
  | array : FieldType

/-- An option of a select field: a display label and a stored value. -/
structure SelectOption where
  label : String
  value : String

/-- A field of a collection config, translated from the source: its name, an
optional display label, its type, the `admin.readOnly` flag (false when
absent in the source), its select options, its relationship target, and its
nested fields (for array fields). The `link` field's UI component function is
not part of the declarative data and is not modelled. -/
inductive FieldConfig where
  | mk : String → Option String → FieldType → Bool → List SelectOption →
      Option String → List FieldConfig → FieldConfig

def FieldConfig.name : FieldConfig → String
  | .mk n _ _ _ _ _ _ => n

def FieldConfig.label : FieldConfig → Option String
  | .mk _ l _ _ _ _ _ => l

def FieldConfig.fieldType : FieldConfig → FieldType
  | .mk _ _ t _ _ _ _ => t

def FieldConfig.readOnly : FieldConfig → Bool
  | .mk _ _ _ r _ _ _ => r

def FieldConfig.selectValues : FieldConfig → List String
  | .mk _ _ _ _ opts _ _ => opts.map SelectOption.value

def FieldConfig.optionCount : FieldConfig → Nat
  | .mk _ _ _ _ opts _ _ => opts.length

def FieldConfig.relationTo : FieldConfig → Option String
  | .mk _ _ _ _ _ r _ => r

def FieldConfig.subFields : FieldConfig → List FieldConfig
  | .mk _ _ _ _ _ _ fs => fs

/-- A collection config, translated from the source: slug, timestamps flag,
admin title field and default columns, API-key auth flag, and fields. -/
structure CollectionConfig where
  slug : String
  timestamps : Bool
  useAsTitle : String
  defaultColumns : List String
  useAPIKey : Bool
  fields : List FieldConfig

/-- Find a field by name in a list of field configs. -/
def findField : List FieldConfig → String → Option FieldConfig
  | [], _ => none
  | f :: rest, n => if f.name = n then some f else findField rest n

/-- The Customers collection config, translated declaration by declaration
from `packages/plugin-stripe/demo/src/collections/Customers.ts`. -/
def Customers : CollectionConfig :=
  { slug := "customers"
    timestamps := true
    useAsTitle := "email"
    defaultColumns := ["email", "name"]
    useAPIKey := true
    fields :=
      [FieldConfig.mk "name" (some "Name") FieldType.text false [] none [],
       FieldConfig.mk "subscriptions" (some "Subscriptions") FieldType.array
         false [] none
         [FieldConfig.mk "link" (some "Link") FieldType.ui false [] none [],
          FieldConfig.mk "stripeSubscriptionID" (some "Stripe ID")
            FieldType.text true [] none [],
          FieldConfig.mk "stripeProductID" (some "Product ID") FieldType.text
            true [] none [],
          FieldConfig.mk "product" none FieldType.relationship true []
            (some "products") [],
          FieldConfig.mk "status" (some "Status") FieldType.select true
            [SelectOption.mk "Active" "active",
             SelectOption.mk "Canceled" "canceled",
             SelectOption.mk "Incomplete" "incomplete",
             SelectOption.mk "Incomplete Expired" "incomplete_expired",
             SelectOption.mk "Past Due" "past_due",
             SelectOption.mk "Trialing" "trialing",
             SelectOption.mk "Unpaid" "unpaid"]
            none []]] }

/-- C10. In the Customers collection, the status field inside the
subscriptions array is a select with exactly seven options whose values are
active, canceled, incomplete, incomplete_expired, past_due, trialing and
unpaid, and it is read-only in the admin panel, as are
stripeSubscriptionID, stripeProductID and product. -/
theorem customers_subscriptions_status_config :
    ((findField Customers.fields "subscriptions").bind
        (fun f => findField f.subFields "status")).map
        (fun f => (f.fieldType, f.readOnly, f.optionCount, f.selectValues))
      = some (FieldType.select, true, 7,
          ["active", "canceled", "incomplete", "incomplete_expired",
           "past_due", "trialing", "unpaid"])
    ∧ ((findField Customers.fields "subscriptions").bind
        (fun f => findField f.subFields "stripeSubscriptionID")).map
        FieldConfig.readOnly = some true
    ∧ ((findField Customers.fields "subscriptions").bind
        (fun f => findField f.subFields "stripeProductID")).map
        FieldConfig.readOnly = some true
    ∧ ((findField Customers.fields "subscriptions").bind
        (fun f => findField f.subFields "product")).map
        FieldConfig.readOnly = some true :=
  ⟨rfl, rfl, rfl, rfl⟩

end StripeDemo
